import Mathlib

/-!
Verification of the group-expense splitting and settlement subsystem of the
MySpendApp expense tracker.

The development shallowly embeds the relevant server code:

* `src/server/storage.ts` — `MemStorage`, a `Map`-backed in-memory store with
  monotone id counters; here each `Map<number, T>` becomes an association list
  `List (Nat × T)` with JS `Map.get`/`Map.set` semantics (`mapGet`/`mapSet`).
* `src/server/routes.ts` — the `POST /api/expenses` handler (equal-split loop)
  and the `PATCH /api/splits/:id/settle` handler, embedded as `postExpense`
  and `settleSplitRoute`.
* `src/unnamed/part_009` — the `POST /api/groups/expenses` handler (custom
  splits), embedded as `postGroupExpenses` over a Mongo-storage model.
* `src/server/simple-mongo-storage.ts` — the module-level ObjectId ↔ numeric
  id mapping (`getNumericId`/`getObjectId`), embedded as `IdMap`.

Conventions: monetary amounts are rationals (the source keeps them as decimal
strings and converts with `parseFloat`); timestamps (`new Date()`) are `Nat`
parameters threaded in by the caller; JS `toFixed(2)` on positive amounts is
round-half-away-from-zero at 2 decimal digits, embedded as `round2`.
-/

namespace MySpend

/-- JS `x.toFixed(2)` for a non-negative number: quantize to 2 decimal digits,
rounding half away from zero (= half up for the non-negative amounts this
application handles). -/
def round2 (x : ℚ) : ℚ := (⌊x * 100 + 1 / 2⌋ : ℚ) / 100

/-- JS `Map.get`: the value stored at `k`, if present. -/
def mapGet {κ : Type} {α : Type} [DecidableEq κ] (m : List (κ × α)) (k : κ) : Option α :=
  match m with
  | [] => none
  | p :: rest => if p.1 = k then some p.2 else mapGet rest k

/-- JS `Map.set`: replace the entry at `k` in place (preserving insertion
order), or append a new entry at the end. -/
def mapSet {κ : Type} {α : Type} [DecidableEq κ] (m : List (κ × α)) (k : κ) (v : α) :
    List (κ × α) :=
  match m with
  | [] => [(k, v)]
  | p :: rest => if p.1 = k then (k, v) :: rest else p :: mapSet rest k v

theorem mapGet_mapSet_self {κ α : Type} [DecidableEq κ] (m : List (κ × α)) (k : κ) (v : α) :
    mapGet (mapSet m k v) k = some v := by
  induction m with
  | nil => simp [mapGet, mapSet]
  | cons p rest ih =>
      by_cases h : p.1 = k
      · simp [mapGet, mapSet, h]
      · simp [mapGet, mapSet, h, ih]

theorem mapGet_mapSet_ne {κ α : Type} [DecidableEq κ] (m : List (κ × α)) (k j : κ) (v : α)
    (hjk : j ≠ k) : mapGet (mapSet m k v) j = mapGet m j := by
  induction m with
  | nil => simp [mapGet, mapSet, Ne.symm hjk]
  | cons p rest ih =>
      by_cases h : p.1 = k
      · subst h
        simp [mapGet, mapSet, Ne.symm hjk]
      · by_cases h2 : p.1 = j
        · simp [mapGet, mapSet, h, h2, hjk]
        · simp [mapGet, mapSet, h, h2, ih]

theorem mapSet_eq_append {κ α : Type} [DecidableEq κ] (m : List (κ × α)) (k : κ) (v : α)
    (h : ∀ p ∈ m, p.1 ≠ k) : mapSet m k v = m ++ [(k, v)] := by
  induction m with
  | nil => simp [mapSet]
  | cons p rest ih =>
      have hp : p.1 ≠ k := h p (List.mem_cons_self p rest)
      simp only [mapSet, if_neg hp, List.cons_append, List.cons.injEq, true_and]
      exact ih fun q hq => h q (List.mem_cons_of_mem p hq)

theorem mapGet_some_mem {κ α : Type} [DecidableEq κ] (m : List (κ × α)) (k : κ) (v : α)
    (h : mapGet m k = some v) : (k, v) ∈ m := by
  induction m with
  | nil => simp [mapGet] at h
  | cons p rest ih =>
      by_cases hp : p.1 = k
      · simp only [mapGet, if_pos hp] at h
        have hv := Option.some.inj h
        subst hp
        subst hv
        simp
      · simp only [mapGet, if_neg hp] at h
        exact List.mem_cons_of_mem p (ih h)

/-! ### Data model (`src/shared/schema.ts` row shapes as the server uses them) -/

/-- Insert shape for an expense (`InsertExpense`): `id` and `date` are
server-assigned. JS represents `amount` as a decimal string; it is a rational
here. -/
structure InsertExpense where
  amount : ℚ
  description : String
  categoryId : Nat
  userId : Nat
  groupId : Option Nat
  notes : Option String
  receipt : Option String
deriving Repr, DecidableEq

/-- A persisted expense row. -/
structure Expense where
  id : Nat
  amount : ℚ
  description : String
  categoryId : Nat
  userId : Nat
  groupId : Option Nat
  notes : Option String
  receipt : Option String
  date : Nat
deriving Repr, DecidableEq

/-- A group-membership row. -/
structure GroupMember where
  id : Nat
  groupId : Nat
  userId : Nat
  joinedAt : Nat
deriving Repr, DecidableEq

/-- Insert shape for a split row (`InsertGroupExpenseSplit`). -/
structure InsertGroupExpenseSplit where
  expenseId : Nat
  userId : Nat
  amount : ℚ
deriving Repr, DecidableEq

/-- A persisted group-expense-split row: `userId` is the owing member. -/
structure GroupExpenseSplit where
  id : Nat
  expenseId : Nat
  userId : Nat
  amount : ℚ
  settled : Bool
  settledAt : Option Nat
deriving Repr, DecidableEq

/-- Insert shape for a notification. -/
structure InsertNotification where
  userId : Nat
  ntype : String
  title : String
  message : String
deriving Repr, DecidableEq

/-- A persisted notification row (field `type` in the source is `ntype` here). -/
structure Notification where
  id : Nat
  userId : Nat
  ntype : String
  title : String
  message : String
  read : Bool
  createdAt : Nat
deriving Repr, DecidableEq

/-! ### `MemStorage` (src/server/storage.ts) -/

/-- The in-memory store: one JS `Map` per entity plus the monotone id
counters. Users and categories are omitted — no claim touches them. -/
structure MemStorage where
  expenses : List (Nat × Expense)
  groupMembers : List (Nat × GroupMember)
  groupExpenseSplits : List (Nat × GroupExpenseSplit)
  notifications : List (Nat × Notification)
  currentExpenseId : Nat
  currentGroupMemberId : Nat
  currentGroupExpenseSplitId : Nat
  currentNotificationId : Nat
deriving Repr, DecidableEq

/-- The store right after `MemStorage`'s constructor (`seedData` seeds only
users and categories, which are not modelled): all claim-relevant collections
empty and every counter at 1. -/
def initialMemStorage : MemStorage :=
  { expenses := [], groupMembers := [], groupExpenseSplits := [], notifications := []
    currentExpenseId := 1, currentGroupMemberId := 1
    currentGroupExpenseSplitId := 1, currentNotificationId := 1 }

/-- Embeds `MemStorage.createExpense`: assigns the next expense id and the current
date, stores and returns the row. (The source's `groupId || null` coercion is
the identity here since numeric ids start at 1.) -/
def createExpense (s : MemStorage) (ins : InsertExpense) (now : Nat) :
    Expense × MemStorage :=
  let id := s.currentExpenseId
  let expense : Expense :=
    { id := id, amount := ins.amount, description := ins.description
      categoryId := ins.categoryId, userId := ins.userId, groupId := ins.groupId
      notes := ins.notes, receipt := ins.receipt, date := now }
  (expense, { s with expenses := mapSet s.expenses id expense, currentExpenseId := id + 1 })

/-- Embeds `MemStorage.addGroupMember`. -/
def addGroupMember (s : MemStorage) (groupId userId now : Nat) :
    GroupMember × MemStorage :=
  let id := s.currentGroupMemberId
  let member : GroupMember := { id := id, groupId := groupId, userId := userId, joinedAt := now }
  (member,
    { s with groupMembers := mapSet s.groupMembers id member, currentGroupMemberId := id + 1 })

/-- Embeds `MemStorage.getGroupMembers`: all membership rows of the group, in store
order. -/
def getGroupMembers (s : MemStorage) (groupId : Nat) : List GroupMember :=
  (s.groupMembers.map (·.2)).filter (fun m => m.groupId == groupId)

/-- Embeds `MemStorage.createGroupExpenseSplit`: assigns the next split id, stores
the row with `settled := false`, `settledAt := null`. -/
def createGroupExpenseSplit (s : MemStorage) (ins : InsertGroupExpenseSplit) :
    GroupExpenseSplit × MemStorage :=
  let id := s.currentGroupExpenseSplitId
  let split : GroupExpenseSplit :=
    { id := id, expenseId := ins.expenseId, userId := ins.userId, amount := ins.amount
      settled := false, settledAt := none }
  (split,
    { s with groupExpenseSplits := mapSet s.groupExpenseSplits id split
             currentGroupExpenseSplitId := id + 1 })

/-- Embeds `MemStorage.settleGroupExpenseSplit`: if the split exists, overwrite it
with `settled := true`, `settledAt := new Date()` (unconditionally — there is
no already-settled guard in the source) and return the updated row. -/
def settleGroupExpenseSplit (s : MemStorage) (id : Nat) (now : Nat) :
    Option GroupExpenseSplit × MemStorage :=
  match mapGet s.groupExpenseSplits id with
  | some split =>
      let updatedSplit := { split with settled := true, settledAt := some now }
      (some updatedSplit,
        { s with groupExpenseSplits := mapSet s.groupExpenseSplits id updatedSplit })
  | none => (none, s)

/-- Embeds `MemStorage.getGroupExpenseSplits`: all split rows of one expense. -/
def getGroupExpenseSplits (s : MemStorage) (expenseId : Nat) : List GroupExpenseSplit :=
  (s.groupExpenseSplits.map (·.2)).filter (fun sp => sp.expenseId == expenseId)

/-- Embeds `MemStorage.createNotification`. -/
def createNotification (s : MemStorage) (ins : InsertNotification) (now : Nat) :
    Notification × MemStorage :=
  let id := s.currentNotificationId
  let n : Notification :=
    { id := id, userId := ins.userId, ntype := ins.ntype, title := ins.title
      message := ins.message, read := false, createdAt := now }
  (n, { s with notifications := mapSet s.notifications id n, currentNotificationId := id + 1 })

/-- Embeds `MemStorage.markNotificationAsRead`. -/
def markNotificationAsRead (s : MemStorage) (id : Nat) :
    Option Notification × MemStorage :=
  match mapGet s.notifications id with
  | some n =>
      let updated := { n with read := true }
      (some updated, { s with notifications := mapSet s.notifications id updated })
  | none => (none, s)

/-! ### Route handlers (src/server/routes.ts) -/

/-- A message passed to `broadcastToClients` (sent to every connected
WebSocket client). -/
inductive BroadcastMessage where
  | expenseAdded (expense : Expense) (groupId : Nat)
  | paymentSettled (split : GroupExpenseSplit)
  | groupExpenseAdded (groupId : Nat) (expense : Expense)
deriving Repr, DecidableEq

/-- The split-creation loop of `POST /api/expenses`: for each group member
other than the payer, persist a split of `splitAmount.toFixed(2)`.
`splitAmount` was computed once, before the loop. -/
def splitLoop (expense : Expense) (splitAmount : ℚ) :
    List GroupMember → MemStorage → MemStorage
  | [], s => s
  | member :: rest, s =>
      if member.userId ≠ expense.userId then
        splitLoop expense splitAmount rest
          (createGroupExpenseSplit s
            { expenseId := expense.id, userId := member.userId
              amount := round2 splitAmount }).2
      else
        splitLoop expense splitAmount rest s

/-- Outcome of the `POST /api/expenses` handler: HTTP status, the created
expense, the broadcasts emitted, and the store afterwards. -/
structure ExpenseRouteResult where
  status : Nat
  expense : Expense
  broadcasts : List BroadcastMessage
  state : MemStorage
deriving Repr, DecidableEq

/-- The `POST /api/expenses` handler body: create the expense; if it carries a
group id, fetch the members, compute `splitAmount = amount / members.length`,
run the split loop and broadcast the expense-added event; answer 201. -/
def postExpense (s : MemStorage) (ins : InsertExpense) (now : Nat) : ExpenseRouteResult :=
  let expense := (createExpense s ins now).1
  let s1 := (createExpense s ins now).2
  match expense.groupId with
  | some gid =>
      let members := getGroupMembers s1 gid
      let splitAmount := expense.amount / (members.length : ℚ)
      let s2 := splitLoop expense splitAmount members s1
      { status := 201, expense := expense
        broadcasts := [BroadcastMessage.expenseAdded expense gid], state := s2 }
  | none => { status := 201, expense := expense, broadcasts := [], state := s1 }

/-- Outcome of the `PATCH /api/splits/:id/settle` handler. -/
structure SettleRouteResult where
  status : Nat
  split : Option GroupExpenseSplit
  broadcasts : List BroadcastMessage
  state : MemStorage
deriving Repr, DecidableEq

/-- The `PATCH /api/splits/:id/settle` handler body: settle; on `undefined`
answer 404, otherwise broadcast `payment settled` and answer 200. -/
def settleSplitRoute (s : MemStorage) (splitId now : Nat) : SettleRouteResult :=
  match (settleGroupExpenseSplit s splitId now).1 with
  | some split =>
      { status := 200, split := some split
        broadcasts := [BroadcastMessage.paymentSettled split]
        state := (settleGroupExpenseSplit s splitId now).2 }
  | none =>
      { status := 404, split := none, broadcasts := []
        state := (settleGroupExpenseSplit s splitId now).2 }

/-- The split rows `POST /api/expenses` appends for this expense: the spec of
the loop, used to characterise `splitLoop` on well-formed stores. -/
def owedSplits (expense : Expense) (splitAmount : ℚ) :
    List GroupMember → Nat → List GroupExpenseSplit
  | [], _ => []
  | member :: rest, nextId =>
      if member.userId ≠ expense.userId then
        { id := nextId, expenseId := expense.id, userId := member.userId
          amount := round2 splitAmount, settled := false, settledAt := none }
          :: owedSplits expense splitAmount rest (nextId + 1)
      else
        owedSplits expense splitAmount rest nextId

/-- The split rows created by one `postExpense` call, read off the result
store. -/
def createdSplits (s : MemStorage) (ins : InsertExpense) (now : Nat) :
    List GroupExpenseSplit :=
  ((postExpense s ins now).state.groupExpenseSplits.drop s.groupExpenseSplits.length).map (·.2)

/-! ### Storage operations as a step relation

All state-changing `MemStorage` operations (including the two composite route
handlers); the read operations of the source (`getExpenses`,
`getGroupExpenseSplits`, …) are pure queries and change no state. -/

/-- One state-changing operation of the system. -/
inductive Op where
  | createExpenseOp (ins : InsertExpense) (now : Nat)
  | addGroupMemberOp (groupId userId now : Nat)
  | createGroupExpenseSplitOp (ins : InsertGroupExpenseSplit)
  | settleGroupExpenseSplitOp (id now : Nat)
  | createNotificationOp (ins : InsertNotification) (now : Nat)
  | markNotificationAsReadOp (id : Nat)
  | postExpenseOp (ins : InsertExpense) (now : Nat)
  | settleSplitRouteOp (splitId now : Nat)
deriving Repr, DecidableEq

/-- Apply one operation to the store, keeping only the resulting state. -/
def applyOp (s : MemStorage) : Op → MemStorage
  | .createExpenseOp ins now => (createExpense s ins now).2
  | .addGroupMemberOp g u now => (addGroupMember s g u now).2
  | .createGroupExpenseSplitOp ins => (createGroupExpenseSplit s ins).2
  | .settleGroupExpenseSplitOp id now => (settleGroupExpenseSplit s id now).2
  | .createNotificationOp ins now => (createNotification s ins now).2
  | .markNotificationAsReadOp id => (markNotificationAsRead s id).2
  | .postExpenseOp ins now => (postExpense s ins now).state
  | .settleSplitRouteOp id now => (settleSplitRoute s id now).state

/-- Freshness invariant of the split map: every stored key is strictly below
the id counter, so `Map.set` inside `createGroupExpenseSplit` never overwrites
an existing row. -/
def splitsWF (s : MemStorage) : Prop :=
  ∀ p ∈ s.groupExpenseSplits, p.1 < s.currentGroupExpenseSplitId

/-- States reachable from the freshly constructed store by system
operations. -/
inductive MemReachable : MemStorage → Prop where
  | init : MemReachable initialMemStorage
  | step (s : MemStorage) (op : Op) : MemReachable s → MemReachable (applyOp s op)

/-! ### Identity mapping layer (src/server/simple-mongo-storage.ts, lines 5-21)

The module-level `objectIdToNumber` / `numberToObjectId` maps and the
`idCounter`. Native `ObjectId` keys are modelled by their `toString()` form,
a `String`. -/

/-- The process-wide id-mapping state. -/
structure IdMap where
  objectIdToNumber : List (String × Nat)
  numberToObjectId : List (Nat × String)
  idCounter : Nat
deriving Repr, DecidableEq

/-- The id-mapping state at module load: both maps empty, counter 1. -/
def initialIdMap : IdMap :=
  { objectIdToNumber := [], numberToObjectId := [], idCounter := 1 }

/-- Embeds `getNumericId(objectId)`: return the stable id of a seen key; a new
key is allocated the next counter value, registered in both maps, and the
counter is incremented. -/
def getNumericId (m : IdMap) (key : String) : Nat × IdMap :=
  match mapGet m.objectIdToNumber key with
  | some n => (n, m)
  | none =>
      let numId := m.idCounter
      (numId,
        { objectIdToNumber := mapSet m.objectIdToNumber key numId
          numberToObjectId := mapSet m.numberToObjectId numId key
          idCounter := m.idCounter + 1 })

/-- Embeds `getObjectId(numId)`: resolve a stable id back to the native key
(`null`, here `none`, when unknown). -/
def getObjectId (m : IdMap) (numId : Nat) : Option String :=
  mapGet m.numberToObjectId numId

/-- Id-mapping states reachable during a process lifetime: every mutation goes
through `getNumericId`. -/
inductive IdMapReachable : IdMap → Prop where
  | init : IdMapReachable initialIdMap
  | step (m : IdMap) (key : String) : IdMapReachable m → IdMapReachable (getNumericId m key).2

/-- Invariant of the id map: forward entries round-trip through the backward
map, stay below the counter, and forward keys are unique. -/
def IdMapWF (m : IdMap) : Prop :=
  (∀ p ∈ m.objectIdToNumber, mapGet m.numberToObjectId p.2 = some p.1 ∧ p.2 < m.idCounter)

/-! ### Mongo-backed storage (src/server/simple-mongo-storage.ts), numeric view

The Mongo backend converts caller-supplied numeric ids to `ObjectId`s through
the id map above, throwing when a supplied id has never been seen, and
converts stored documents back with `getNumericId`. The model keeps the
numeric view: `knownIds` lists the numeric ids that have an `ObjectId`
mapping (exactly those on which `getObjectId` succeeds), and a fresh document
allocates the next numeric id at creation — faithful to the source, whose
create operations return the converted document, calling `getNumericId` on
the fresh `_id` immediately. -/

/-- Numeric view of the Mongo-backed store. -/
structure MongoStore where
  knownIds : List Nat
  nextNativeId : Nat
  expensesM : List Expense
  splitsM : List GroupExpenseSplit
  membersM : List GroupMember
deriving Repr, DecidableEq

/-- Embeds `MongoStorage.isGroupMember`: `false` when either id is unknown,
else a `findOne` on the membership collection. -/
def isGroupMemberM (s : MongoStore) (groupId userId : Nat) : Bool :=
  if groupId ∈ s.knownIds ∧ userId ∈ s.knownIds then
    s.membersM.any (fun m => m.groupId == groupId && m.userId == userId)
  else false

/-- Embeds `MongoStorage.createExpense`: throws when the payer or category id
is unknown; an unknown group id is silently stored as `null` (the source's
`insertExpense.groupId ? getObjectId(...) : null` with a `null` map result). -/
def createExpenseM (s : MongoStore) (ins : InsertExpense) (now : Nat) :
    Except String (Expense × MongoStore) :=
  if ins.userId ∈ s.knownIds ∧ ins.categoryId ∈ s.knownIds then
    let id := s.nextNativeId
    let expense : Expense :=
      { id := id, amount := ins.amount, description := ins.description
        categoryId := ins.categoryId, userId := ins.userId
        groupId := match ins.groupId with
          | some gid => if gid ∈ s.knownIds then some gid else none
          | none => none
        notes := ins.notes, receipt := ins.receipt, date := now }
    .ok (expense,
      { s with knownIds := s.knownIds ++ [id], nextNativeId := id + 1
               expensesM := s.expensesM ++ [expense] })
  else .error "Invalid user or category ID"

/-- Embeds `MongoStorage.createGroupExpenseSplit`: throws when the expense or
owing-member id is unknown; otherwise inserts the row with `settled: false`. -/
def createGroupExpenseSplitM (s : MongoStore) (ins : InsertGroupExpenseSplit) :
    Except String (GroupExpenseSplit × MongoStore) :=
  if ins.expenseId ∈ s.knownIds ∧ ins.userId ∈ s.knownIds then
    let id := s.nextNativeId
    let split : GroupExpenseSplit :=
      { id := id, expenseId := ins.expenseId, userId := ins.userId
        amount := ins.amount, settled := false, settledAt := none }
    .ok (split,
      { s with knownIds := s.knownIds ++ [id], nextNativeId := id + 1
               splitsM := s.splitsM ++ [split] })
  else .error "Invalid expense or user ID"

/-- Embeds `MongoStorage.getGroupExpenseSplits`: `[]` for an unknown expense
id, else the rows referencing the expense. -/
def getGroupExpenseSplitsM (s : MongoStore) (expenseId : Nat) : List GroupExpenseSplit :=
  if expenseId ∈ s.knownIds then s.splitsM.filter (fun sp => sp.expenseId == expenseId)
  else []

/-- One caller-supplied custom split entry `{ userId, amount }` of the
`POST /api/groups/expenses` body. -/
structure SuppliedSplit where
  userId : Nat
  amount : ℚ
deriving Repr, DecidableEq

/-- The split-creation loop of `POST /api/groups/expenses`: sequential awaits;
a throw inside the loop aborts it, keeping every row already written. -/
def createSplitsM (expenseId : Nat) :
    List SuppliedSplit → MongoStore → Option String × MongoStore
  | [], s => (none, s)
  | sp :: rest, s =>
      match createGroupExpenseSplitM s
          { expenseId := expenseId, userId := sp.userId, amount := sp.amount } with
      | .ok (_, s1) => createSplitsM expenseId rest s1
      | .error e => (some e, s)

/-- Outcome of the `POST /api/groups/expenses` handler. -/
structure GroupExpenseRouteResult where
  status : Nat
  broadcasts : List BroadcastMessage
  state : MongoStore
deriving Repr, DecidableEq

/-- The `POST /api/groups/expenses` handler body (src/unnamed/part_009, lines
398-443): membership check, `createExpense`, a sequential split-creation loop
with no validation of the supplied amounts, then a broadcast; any throw is
caught and answered with 500, with all rows written so far left in place. -/
def postGroupExpenses (s : MongoStore) (userId groupId : Nat) (amount : ℚ)
    (description : String) (categoryId : Nat) (splits : List SuppliedSplit) (now : Nat) :
    GroupExpenseRouteResult :=
  if isGroupMemberM s groupId userId then
    match createExpenseM s
        { amount := amount, description := description, categoryId := categoryId
          userId := userId, groupId := some groupId, notes := none, receipt := none } now with
    | .ok (expense, s1) =>
        match createSplitsM expense.id splits s1 with
        | (none, s2) =>
            { status := 201
              broadcasts := [BroadcastMessage.groupExpenseAdded groupId expense]
              state := s2 }
        | (some _, s2) => { status := 500, broadcasts := [], state := s2 }
    | .error _ => { status := 500, broadcasts := [], state := s }
  else { status := 403, broadcasts := [], state := s }

/-- Consecutive numeric ids starting at `n`. -/
def rangeFrom : Nat → Nat → List Nat
  | _, 0 => []
  | n, len + 1 => n :: rangeFrom (n + 1) len

/-- The rows the split-creation loop writes for the supplied entries, ids
allocated consecutively from `nextId`. -/
def suppliedRows (expenseId : Nat) : List SuppliedSplit → Nat → List GroupExpenseSplit
  | [], _ => []
  | sp :: rest, nextId =>
      { id := nextId, expenseId := expenseId, userId := sp.userId, amount := sp.amount
        settled := false, settledAt := none } :: suppliedRows expenseId rest (nextId + 1)

/-! ### Helper lemmas on `MemStorage` and the split loop -/

theorem mapGet_none_forall {κ α : Type} [DecidableEq κ] (m : List (κ × α)) (k : κ)
    (h : mapGet m k = none) : ∀ p ∈ m, p.1 ≠ k := by
  induction m with
  | nil => intro p hp; cases hp
  | cons p rest ih =>
      by_cases hp : p.1 = k
      · simp [mapGet, hp] at h
      · intro q hq
        rcases List.mem_cons.mp hq with rfl | hq
        · exact hp
        · simp only [mapGet, if_neg hp] at h
          exact ih h q hq

theorem mem_mapSet {κ α : Type} [DecidableEq κ] (m : List (κ × α)) (k : κ) (v : α) :
    ∀ p ∈ mapSet m k v, p ∈ m ∨ p = (k, v) := by
  induction m with
  | nil => intro p hp; simp [mapSet] at hp; right; exact hp
  | cons q rest ih =>
      intro p hp
      by_cases hq : q.1 = k
      · simp only [mapSet, if_pos hq] at hp
        rcases List.mem_cons.mp hp with rfl | hp
        · right; rfl
        · left; exact List.mem_cons_of_mem q hp
      · simp only [mapSet, if_neg hq] at hp
        rcases List.mem_cons.mp hp with rfl | hp
        · left; exact List.mem_cons_self _ _
        · rcases ih p hp with h | h
          · left; exact List.mem_cons_of_mem q h
          · right; exact h

theorem splitsWF_createExpense (s : MemStorage) (ins : InsertExpense) (now : Nat)
    (hwf : splitsWF s) : splitsWF (createExpense s ins now).2 := by
  intro p hp
  exact hwf p hp

theorem splitsWF_addGroupMember (s : MemStorage) (g u now : Nat)
    (hwf : splitsWF s) : splitsWF (addGroupMember s g u now).2 := by
  intro p hp
  exact hwf p hp

theorem splitsWF_createNotification (s : MemStorage) (ins : InsertNotification) (now : Nat)
    (hwf : splitsWF s) : splitsWF (createNotification s ins now).2 := by
  intro p hp
  exact hwf p hp

theorem splitsWF_createGroupExpenseSplit (s : MemStorage) (ins : InsertGroupExpenseSplit)
    (hwf : splitsWF s) : splitsWF (createGroupExpenseSplit s ins).2 := by
  intro p hp
  rcases mem_mapSet _ _ _ p hp with h | rfl
  · exact Nat.lt_succ_of_lt (hwf p h)
  · exact Nat.lt_succ_self _

theorem splitsWF_settle (s : MemStorage) (id now : Nat)
    (hwf : splitsWF s) : splitsWF (settleGroupExpenseSplit s id now).2 := by
  unfold settleGroupExpenseSplit
  cases hfind : mapGet s.groupExpenseSplits id with
  | none => exact hwf
  | some sp =>
      intro p hp
      rcases mem_mapSet _ _ _ p hp with h | rfl
      · exact hwf p h
      · exact hwf (id, sp) (mapGet_some_mem _ _ _ hfind)

theorem splitsWF_markNotificationAsRead (s : MemStorage) (id : Nat)
    (hwf : splitsWF s) : splitsWF (markNotificationAsRead s id).2 := by
  unfold markNotificationAsRead
  cases mapGet s.notifications id with
  | none => exact hwf
  | some n => intro p hp; exact hwf p hp

theorem createGroupExpenseSplit_splits_eq (s : MemStorage) (ins : InsertGroupExpenseSplit)
    (hwf : splitsWF s) :
    (createGroupExpenseSplit s ins).2.groupExpenseSplits =
      s.groupExpenseSplits ++
        [(s.currentGroupExpenseSplitId,
          { id := s.currentGroupExpenseSplitId, expenseId := ins.expenseId
            userId := ins.userId, amount := ins.amount, settled := false
            settledAt := none })] := by
  apply mapSet_eq_append
  intro p hp
  exact Nat.ne_of_lt (hwf p hp)

theorem splitLoop_state (e : Expense) (amt : ℚ) (members : List GroupMember) (s : MemStorage)
    (hwf : splitsWF s) :
    (splitLoop e amt members s).groupExpenseSplits =
        s.groupExpenseSplits ++
          (owedSplits e amt members s.currentGroupExpenseSplitId).map (fun sp => (sp.id, sp)) ∧
      (splitLoop e amt members s).currentGroupExpenseSplitId =
        s.currentGroupExpenseSplitId +
          (owedSplits e amt members s.currentGroupExpenseSplitId).length ∧
      (splitLoop e amt members s).notifications = s.notifications ∧
      (splitLoop e amt members s).expenses = s.expenses ∧
      (splitLoop e amt members s).groupMembers = s.groupMembers := by
  induction members generalizing s with
  | nil => simp [splitLoop, owedSplits]
  | cons member rest ih =>
      by_cases hm : member.userId ≠ e.userId
      · have hcreated := createGroupExpenseSplit_splits_eq s
          { expenseId := e.id, userId := member.userId, amount := round2 amt } hwf
        have hwf1 := splitsWF_createGroupExpenseSplit s
          { expenseId := e.id, userId := member.userId, amount := round2 amt } hwf
        have h1 := ih _ hwf1
        simp only [splitLoop, if_pos hm]
        refine ⟨?_, ?_, h1.2.2.1, h1.2.2.2.1, h1.2.2.2.2⟩
        · rw [h1.1, hcreated]
          simp [owedSplits, if_pos hm, createGroupExpenseSplit]
        · rw [h1.2.1]
          simp only [createGroupExpenseSplit]
          simp [owedSplits, if_pos hm]
          omega
      · simp only [splitLoop, if_neg hm, owedSplits]
        exact ih s hwf

theorem splitsWF_splitLoop (e : Expense) (amt : ℚ) (members : List GroupMember)
    (s : MemStorage) (hwf : splitsWF s) : splitsWF (splitLoop e amt members s) := by
  induction members generalizing s with
  | nil => exact hwf
  | cons member rest ih =>
      by_cases hm : member.userId ≠ e.userId
      · simp only [splitLoop, if_pos hm]
        exact ih _ (splitsWF_createGroupExpenseSplit s _ hwf)
      · simp only [splitLoop, if_neg hm]
        exact ih s hwf

theorem splitsWF_postExpense (s : MemStorage) (ins : InsertExpense) (now : Nat)
    (hwf : splitsWF s) : splitsWF (postExpense s ins now).state := by
  unfold postExpense
  have h1 := splitsWF_createExpense s ins now hwf
  cases hg : (createExpense s ins now).1.groupId with
  | some gid =>
      simp only [hg]
      exact splitsWF_splitLoop _ _ _ _ h1
  | none =>
      simp only [hg]
      exact h1

theorem splitsWF_settleSplitRoute (s : MemStorage) (splitId now : Nat)
    (hwf : splitsWF s) : splitsWF (settleSplitRoute s splitId now).state := by
  unfold settleSplitRoute
  have h := splitsWF_settle s splitId now hwf
  cases hr : (settleGroupExpenseSplit s splitId now).1 with
  | some sp => simp only [hr]; exact h
  | none => simp only [hr]; exact h

theorem splitsWF_applyOp (s : MemStorage) (op : Op) (hwf : splitsWF s) :
    splitsWF (applyOp s op) := by
  cases op with
  | createExpenseOp ins now => exact splitsWF_createExpense s ins now hwf
  | addGroupMemberOp g u now => exact splitsWF_addGroupMember s g u now hwf
  | createGroupExpenseSplitOp ins => exact splitsWF_createGroupExpenseSplit s ins hwf
  | settleGroupExpenseSplitOp id now => exact splitsWF_settle s id now hwf
  | createNotificationOp ins now => exact splitsWF_createNotification s ins now hwf
  | markNotificationAsReadOp id => exact splitsWF_markNotificationAsRead s id hwf
  | postExpenseOp ins now => exact splitsWF_postExpense s ins now hwf
  | settleSplitRouteOp id now => exact splitsWF_settleSplitRoute s id now hwf

theorem splitsWF_initial : splitsWF initialMemStorage := by
  intro p hp
  cases hp

theorem MemReachable_splitsWF (s : MemStorage) (h : MemReachable s) : splitsWF s := by
  induction h with
  | init => exact splitsWF_initial
  | step s op _ ih => exact splitsWF_applyOp s op ih

theorem postExpense_group (s : MemStorage) (ins : InsertExpense) (now gid : Nat)
    (hg : ins.groupId = some gid) :
    postExpense s ins now =
      { status := 201, expense := (createExpense s ins now).1
        broadcasts := [BroadcastMessage.expenseAdded (createExpense s ins now).1 gid]
        state := splitLoop (createExpense s ins now).1
          (ins.amount / ((getGroupMembers s gid).length : ℚ))
          (getGroupMembers s gid) (createExpense s ins now).2 } := by
  have hg' : (createExpense s ins now).1.groupId = some gid := hg
  unfold postExpense
  simp only [hg']
  rfl

theorem createdSplits_eq (s : MemStorage) (ins : InsertExpense) (now gid : Nat)
    (hwf : splitsWF s) (hg : ins.groupId = some gid) :
    createdSplits s ins now =
      owedSplits (createExpense s ins now).1
        (ins.amount / ((getGroupMembers s gid).length : ℚ))
        (getGroupMembers s gid) s.currentGroupExpenseSplitId := by
  unfold createdSplits
  rw [postExpense_group s ins now gid hg]
  have h := (splitLoop_state (createExpense s ins now).1
      (ins.amount / ((getGroupMembers s gid).length : ℚ))
      (getGroupMembers s gid) (createExpense s ins now).2
      (splitsWF_createExpense s ins now hwf)).1
  have hsp : ((createExpense s ins now).2).groupExpenseSplits = s.groupExpenseSplits := rfl
  have hcnt : ((createExpense s ins now).2).currentGroupExpenseSplitId =
      s.currentGroupExpenseSplitId := rfl
  rw [hsp, hcnt] at h
  simp only [h, List.drop_left, List.map_map]
  simp [Function.comp_def]

theorem owedSplits_amount (e : Expense) (amt : ℚ) (members : List GroupMember) (n : Nat) :
    ∀ sp ∈ owedSplits e amt members n, sp.amount = round2 amt := by
  induction members generalizing n with
  | nil => intro sp h; cases h
  | cons m rest ih =>
      intro sp h
      by_cases hm : m.userId ≠ e.userId
      · simp only [owedSplits, if_pos hm] at h
        rcases List.mem_cons.mp h with rfl | h
        · rfl
        · exact ih _ sp h
      · simp only [owedSplits, if_neg hm] at h
        exact ih _ sp h

theorem owedSplits_count_of_ne (e : Expense) (amt : ℚ) (members : List GroupMember)
    (n u : Nat) (hu : u ≠ e.userId) :
    ((owedSplits e amt members n).map (·.userId)).count u =
      (members.map (·.userId)).count u := by
  induction members generalizing n with
  | nil => simp [owedSplits]
  | cons m rest ih =>
      by_cases hm : m.userId ≠ e.userId
      · simp only [owedSplits, if_pos hm, List.map_cons, List.count_cons, ih]
      · simp only [owedSplits, if_neg hm, List.map_cons, List.count_cons, ih]
        have hmu : m.userId ≠ u := by
          push_neg at hm
          rw [hm]
          exact Ne.symm hu
        simp [hmu]

theorem owedSplits_count_payer (e : Expense) (amt : ℚ) (members : List GroupMember)
    (n : Nat) :
    ((owedSplits e amt members n).map (·.userId)).count e.userId = 0 := by
  induction members generalizing n with
  | nil => simp [owedSplits]
  | cons m rest ih =>
      by_cases hm : m.userId ≠ e.userId
      · simp only [owedSplits, if_pos hm, List.map_cons, List.count_cons, ih]
        simp [hm]
      · simp only [owedSplits, if_neg hm, ih]

theorem mapGet_append_some {κ α : Type} [DecidableEq κ] (l l' : List (κ × α)) (k : κ)
    (v : α) (h : mapGet l k = some v) : mapGet (l ++ l') k = some v := by
  induction l with
  | nil => simp [mapGet] at h
  | cons p rest ih =>
      by_cases hp : p.1 = k
      · simp only [mapGet, if_pos hp] at h ⊢
        exact h
      · simp only [mapGet, if_neg hp] at h ⊢
        exact ih h

theorem splitLoop_notifications (e : Expense) (amt : ℚ) (members : List GroupMember)
    (s : MemStorage) : (splitLoop e amt members s).notifications = s.notifications := by
  induction members generalizing s with
  | nil => rfl
  | cons m rest ih =>
      by_cases hm : m.userId ≠ e.userId
      · simp only [splitLoop, if_pos hm]
        exact ih _
      · simp only [splitLoop, if_neg hm]
        exact ih s

theorem settle_notifications (s : MemStorage) (id now : Nat) :
    (settleGroupExpenseSplit s id now).2.notifications = s.notifications := by
  unfold settleGroupExpenseSplit
  cases mapGet s.groupExpenseSplits id with
  | some sp => rfl
  | none => rfl

/-! ### Concrete scenario stores

A group (id 1) with three members — user 1 (the payer in the scenarios
below), user 2 and user 3 — built from the fresh store by system
operations, so the scenario states are reachable. -/

/-- Store with group 1 having members 1, 2, 3. -/
def demoStore : MemStorage :=
  applyOp (applyOp (applyOp initialMemStorage
    (Op.addGroupMemberOp 1 1 0)) (Op.addGroupMemberOp 1 2 0)) (Op.addGroupMemberOp 1 3 0)

/-- Insert body of a 30.00 group expense paid by user 1 in group 1. -/
def insDinner : InsertExpense :=
  { amount := 30, description := "Dinner", categoryId := 1, userId := 1
    groupId := some 1, notes := none, receipt := none }

/-- Insert body of a 100.00 group expense paid by user 1 in group 1. -/
def insTrip : InsertExpense :=
  { amount := 100, description := "Trip", categoryId := 1, userId := 1
    groupId := some 1, notes := none, receipt := none }

/-- Store after the 30.00 expense was recorded and its first split settled at
time 5. -/
def settledDemoStore : MemStorage :=
  applyOp (applyOp demoStore (Op.postExpenseOp insDinner 0)) (Op.settleSplitRouteOp 1 5)

/-! ### The claims -/

/-- C1: the equal-split sum property — "the sum of the owed amounts plus the
payer's own implicit share equals the original expense amount exactly at
2-decimal quantization" — fails on the code at amount 100.00 split over the
3-member group: the two owed rows carry 33.33 each, and together with the
payer's quantized share 33.33 the total is 99.99, not 100.00. The loop stores
`(amount / members.length).toFixed(2)` per member and never reconciles the
remainder. -/
theorem equal_split_sum_drifts :
    ((createdSplits demoStore insTrip 0).map (·.amount)) = [3333/100, 3333/100] ∧
    ((createdSplits demoStore insTrip 0).map (·.amount)).sum
        + round2 ((100 : ℚ) / 3) = 9999/100 ∧
    ((9999 : ℚ)/100 ≠ (100 : ℚ)) := by
  refine ⟨?_, ?_, by norm_num⟩ <;>
    norm_num [createdSplits, postExpense, createExpense, getGroupMembers, demoStore, applyOp,
      addGroupMember, initialMemStorage, insTrip, mapSet, splitLoop, createGroupExpenseSplit,
      owedSplits, round2, mapGet]

/-- C5 (counterexample): recording the 30.00 group expense fires the ephemeral
`expense_added` broadcast and settling split 1 fires `payment_settled`, yet in
both cases the store holds zero Notification rows afterwards — the durable
delivery path (one `createNotification` per affected recipient, here users 2
and 3) never fires, refuting "both delivery paths fire". -/
theorem dual_delivery_no_durable_cex :
    (postExpense demoStore insDinner 0).broadcasts =
      [BroadcastMessage.expenseAdded
        { id := 1, amount := 30, description := "Dinner", categoryId := 1, userId := 1
          groupId := some 1, notes := none, receipt := none, date := 0 } 1] ∧
    (postExpense demoStore insDinner 0).state.notifications = [] ∧
    (settleSplitRoute (postExpense demoStore insDinner 0).state 1 5).broadcasts =
      [BroadcastMessage.paymentSettled
        { id := 1, expenseId := 1, userId := 2, amount := 10, settled := true
          settledAt := some 5 }] ∧
    (settleSplitRoute (postExpense demoStore insDinner 0).state 1 5).state.notifications =
      [] := by
  refine ⟨?_, ?_, ?_, ?_⟩ <;>
    norm_num [postExpense, createExpense, getGroupMembers, demoStore, applyOp, addGroupMember,
      initialMemStorage, insDinner, mapSet, splitLoop, createGroupExpenseSplit, round2, mapGet,
      settleSplitRoute, settleGroupExpenseSplit]

/-- C5 (amended): on the split-affecting events only the ephemeral broadcast
fires; neither the expense-creation handler nor the settlement handler ever
calls `createNotification`, so the durable notification collection is left
exactly as it was by every such call. -/
theorem split_events_no_durable_notification (s : MemStorage) (ins : InsertExpense)
    (now splitId now2 : Nat) :
    (postExpense s ins now).state.notifications = s.notifications ∧
    (settleSplitRoute s splitId now2).state.notifications = s.notifications := by
  constructor
  · unfold postExpense
    cases hg : (createExpense s ins now).1.groupId with
    | some gid =>
        simp only [hg]
        exact splitLoop_notifications _ _ _ _
    | none =>
        simp only [hg]
        rfl
  · unfold settleSplitRoute
    cases hr : (settleGroupExpenseSplit s splitId now2).1 with
    | some sp => simp only [hr]; exact settle_notifications s splitId now2
    | none => simp only [hr]; exact settle_notifications s splitId now2

/-- C6 (counterexample): recording an expense tagged with group 1 while that
group has no members does not reject with an `EmptyMemberSet` failure: the
handler answers 201, persists the expense, creates no split row, and even
emits the `expense_added` broadcast — the division `amount / 0` is performed
(yielding `Infinity` in JS) and merely never stored. -/
theorem empty_member_set_not_rejected_cex :
    getGroupMembers initialMemStorage 1 = [] ∧
    (postExpense initialMemStorage insDinner 0).status = 201 ∧
    (postExpense initialMemStorage insDinner 0).state.expenses.length = 1 ∧
    (postExpense initialMemStorage insDinner 0).state.groupExpenseSplits = [] ∧
    (postExpense initialMemStorage insDinner 0).broadcasts ≠ [] := by
  refine ⟨rfl, ?_, ?_, ?_, ?_⟩ <;>
    norm_num [postExpense, createExpense, getGroupMembers, initialMemStorage, insDinner,
      mapSet, splitLoop, mapGet]

/-- C6 (amended): with an empty owing-member set the split computation is not
rejected — the handler succeeds with 201, produces no split rows, and still
broadcasts `expense_added`; no `EmptyMemberSet` failure exists in the code. -/
theorem empty_member_set_succeeds (s : MemStorage) (ins : InsertExpense) (now gid : Nat)
    (hg : ins.groupId = some gid) (hmem : getGroupMembers s gid = []) :
    (postExpense s ins now).status = 201 ∧
    (postExpense s ins now).state.groupExpenseSplits = s.groupExpenseSplits ∧
    (postExpense s ins now).broadcasts =
      [BroadcastMessage.expenseAdded (postExpense s ins now).expense gid] := by
  rw [postExpense_group s ins now gid hg]
  refine ⟨rfl, ?_, rfl⟩
  rw [hmem]
  rfl

/-- C6 (witness): the amended statement instantiated on the fresh store with
its member-less group 1. -/
theorem empty_member_set_succeeds_witness :
    (postExpense initialMemStorage insDinner 0).status = 201 ∧
    (postExpense initialMemStorage insDinner 0).state.groupExpenseSplits = [] ∧
    (postExpense initialMemStorage insDinner 0).broadcasts =
      [BroadcastMessage.expenseAdded (postExpense initialMemStorage insDinner 0).expense 1] :=
  empty_member_set_succeeds initialMemStorage insDinner 0 1 rfl rfl

/-- C2 (counterexample): settling split 1 at time 5 and again at time 9 —
both calls succeed and return `settled = true`, but the second call records
`settledAt = 9`, not the 5 recorded by the first: the second call changes
`settledAt`, and it does not fail with `AlreadySettled` either, refuting both
arms of the claimed disjunction. -/
theorem settle_twice_changes_settledAt_cex :
    (settleGroupExpenseSplit (postExpense demoStore insDinner 0).state 1 5).1 =
      some { id := 1, expenseId := 1, userId := 2, amount := 10, settled := true
             settledAt := some 5 } ∧
    (settleGroupExpenseSplit
        (settleGroupExpenseSplit (postExpense demoStore insDinner 0).state 1 5).2 1 9).1 =
      some { id := 1, expenseId := 1, userId := 2, amount := 10, settled := true
             settledAt := some 9 } ∧
    (some (9 : Nat) ≠ some (5 : Nat)) := by
  refine ⟨?_, ?_, by decide⟩ <;>
    norm_num [postExpense, createExpense, getGroupMembers, demoStore, applyOp, addGroupMember,
      initialMemStorage, insDinner, mapSet, splitLoop, createGroupExpenseSplit, round2, mapGet,
      settleGroupExpenseSplit]

/-- C2 (amended): settlement is not guarded — whenever a first `settle` call
on a split id succeeds, a second call also succeeds (never `AlreadySettled`),
returns the same row with `settled = true`, and overwrites `settledAt` with
the second call's clock reading, so `settledAt` changes whenever the two
clock readings differ. -/
theorem settle_twice_overwrites_settledAt (s : MemStorage) (id now1 now2 : Nat)
    (sp1 : GroupExpenseSplit)
    (h1 : (settleGroupExpenseSplit s id now1).1 = some sp1) :
    sp1.settled = true ∧ sp1.settledAt = some now1 ∧
    (settleGroupExpenseSplit (settleGroupExpenseSplit s id now1).2 id now2).1 =
      some { sp1 with settledAt := some now2 } := by
  cases hfind : mapGet s.groupExpenseSplits id with
  | none =>
      simp only [settleGroupExpenseSplit, hfind] at h1
      cases h1
  | some sp0 =>
      simp only [settleGroupExpenseSplit, hfind] at h1
      have hsp : { sp0 with settled := true, settledAt := some now1 } = sp1 :=
        Option.some.inj h1
      subst hsp
      refine ⟨rfl, rfl, ?_⟩
      simp only [settleGroupExpenseSplit, hfind, mapGet_mapSet_self]

/-- C2 (witness): the amended statement instantiated on the settled demo
split, with clock readings 5 and 9. -/
theorem settle_twice_overwrites_settledAt_witness :
    ({ id := 1, expenseId := 1, userId := 2, amount := 10, settled := true
       settledAt := some 5 } : GroupExpenseSplit).settled = true ∧
    ({ id := 1, expenseId := 1, userId := 2, amount := 10, settled := true
       settledAt := some 5 } : GroupExpenseSplit).settledAt = some 5 ∧
    (settleGroupExpenseSplit
        (settleGroupExpenseSplit (postExpense demoStore insDinner 0).state 1 5).2 1 9).1 =
      some { ({ id := 1, expenseId := 1, userId := 2, amount := 10, settled := true
                settledAt := some 5 } : GroupExpenseSplit) with settledAt := some 9 } :=
  settle_twice_overwrites_settledAt (postExpense demoStore insDinner 0).state 1 5 9 _
    (by norm_num [postExpense, createExpense, getGroupMembers, demoStore, applyOp,
      addGroupMember, initialMemStorage, insDinner, mapSet, splitLoop,
      createGroupExpenseSplit, round2, mapGet, settleGroupExpenseSplit])

/-- C10: frame effect of settlement — when the split exists,
`settleGroupExpenseSplit` returns and stores the row with only `settled` and
`settledAt` changed (`id`, `expenseId`, `userId`, `amount` are carried over
unchanged by the record update), leaves every other split untouched, and
leaves the expense, member and notification collections and the split id
counter unchanged. -/
theorem settle_frame_effect (s : MemStorage) (id now : Nat) (sp : GroupExpenseSplit)
    (h : mapGet s.groupExpenseSplits id = some sp) :
    (settleGroupExpenseSplit s id now).1 =
        some { sp with settled := true, settledAt := some now } ∧
    mapGet (settleGroupExpenseSplit s id now).2.groupExpenseSplits id =
        some { sp with settled := true, settledAt := some now } ∧
    (∀ j, j ≠ id → mapGet (settleGroupExpenseSplit s id now).2.groupExpenseSplits j =
        mapGet s.groupExpenseSplits j) ∧
    (settleGroupExpenseSplit s id now).2.expenses = s.expenses ∧
    (settleGroupExpenseSplit s id now).2.groupMembers = s.groupMembers ∧
    (settleGroupExpenseSplit s id now).2.notifications = s.notifications ∧
    (settleGroupExpenseSplit s id now).2.currentGroupExpenseSplitId =
        s.currentGroupExpenseSplitId := by
  have hret : (settleGroupExpenseSplit s id now).1 =
      some { sp with settled := true, settledAt := some now } := by
    simp only [settleGroupExpenseSplit, h]
  have hstate : (settleGroupExpenseSplit s id now).2 =
      { s with groupExpenseSplits :=
          mapSet s.groupExpenseSplits id { sp with settled := true, settledAt := some now } } := by
    simp only [settleGroupExpenseSplit, h]
  refine ⟨hret, ?_, ?_, by rw [hstate], by rw [hstate], by rw [hstate], by rw [hstate]⟩
  · rw [hstate]
    exact mapGet_mapSet_self _ _ _
  · intro j hj
    rw [hstate]
    exact mapGet_mapSet_ne _ _ _ _ hj

/-- C10 (witness): the frame property instantiated on the demo split 1 at
time 5, checking the sibling split 2 is untouched. -/
theorem settle_frame_effect_witness :
    (settleGroupExpenseSplit (postExpense demoStore insDinner 0).state 1 5).1 =
      some { id := 1, expenseId := 1, userId := 2, amount := 10, settled := true
             settledAt := some 5 } ∧
    mapGet (settleGroupExpenseSplit
        (postExpense demoStore insDinner 0).state 1 5).2.groupExpenseSplits 1 =
      some { id := 1, expenseId := 1, userId := 2, amount := 10, settled := true
             settledAt := some 5 } ∧
    mapGet (settleGroupExpenseSplit
        (postExpense demoStore insDinner 0).state 1 5).2.groupExpenseSplits 2 =
      mapGet (postExpense demoStore insDinner 0).state.groupExpenseSplits 2 ∧
    (settleGroupExpenseSplit (postExpense demoStore insDinner 0).state 1 5).2.notifications =
      (postExpense demoStore insDinner 0).state.notifications := by
  have h := settle_frame_effect (postExpense demoStore insDinner 0).state 1 5
    { id := 1, expenseId := 1, userId := 2, amount := 10, settled := false, settledAt := none }
    (by norm_num [postExpense, createExpense, getGroupMembers, demoStore, applyOp,
      addGroupMember, initialMemStorage, insDinner, mapSet, splitLoop,
      createGroupExpenseSplit, round2, mapGet])
  exact ⟨h.1, h.2.1, h.2.2.1 2 (by decide), h.2.2.2.2.2.1⟩

theorem settle_keeps_settled (s : MemStorage) (id' now id : Nat) (sp : GroupExpenseSplit)
    (hfind : mapGet s.groupExpenseSplits id = some sp) (hsettled : sp.settled = true) :
    Option.map (fun x => x.settled)
      (mapGet (settleGroupExpenseSplit s id' now).2.groupExpenseSplits id) = some true := by
  cases hfind2 : mapGet s.groupExpenseSplits id' with
  | none =>
      simp only [settleGroupExpenseSplit, hfind2]
      rw [hfind]
      simp [hsettled]
  | some sp2 =>
      simp only [settleGroupExpenseSplit, hfind2]
      by_cases hij : id = id'
      · subst hij
        rw [mapGet_mapSet_self]
        simp
      · rw [mapGet_mapSet_ne _ _ _ _ hij, hfind]
        simp [hsettled]

/-- C8: settled is terminal — in every reachable store state, once a split
row carries `settled = true`, applying any further system operation (expense
or member or notification creation, split creation, settlement of any split,
either route handler; reads are pure) leaves that row present with
`settled = true`. -/
theorem settled_is_terminal (s : MemStorage) (hr : MemReachable s) (op : Op) (id : Nat)
    (sp : GroupExpenseSplit) (hfind : mapGet s.groupExpenseSplits id = some sp)
    (hsettled : sp.settled = true) :
    Option.map (fun x => x.settled) (mapGet (applyOp s op).groupExpenseSplits id) =
      some true := by
  have hwf : splitsWF s := MemReachable_splitsWF s hr
  cases op with
  | createExpenseOp ins now =>
      show Option.map _ (mapGet s.groupExpenseSplits id) = some true
      rw [hfind]; simp [hsettled]
  | addGroupMemberOp g u now =>
      show Option.map _ (mapGet s.groupExpenseSplits id) = some true
      rw [hfind]; simp [hsettled]
  | createNotificationOp ins now =>
      show Option.map _ (mapGet s.groupExpenseSplits id) = some true
      rw [hfind]; simp [hsettled]
  | markNotificationAsReadOp nid =>
      simp only [applyOp, markNotificationAsRead]
      cases mapGet s.notifications nid with
      | some n =>
          show Option.map (fun x => x.settled) (mapGet s.groupExpenseSplits id) = some true
          rw [hfind]; simp [hsettled]
      | none =>
          show Option.map (fun x => x.settled) (mapGet s.groupExpenseSplits id) = some true
          rw [hfind]; simp [hsettled]
  | createGroupExpenseSplitOp ins =>
      simp only [applyOp, createGroupExpenseSplit]
      have hne : id ≠ s.currentGroupExpenseSplitId :=
        Nat.ne_of_lt (hwf (id, sp) (mapGet_some_mem _ _ _ hfind))
      rw [mapGet_mapSet_ne _ _ _ _ hne, hfind]
      simp [hsettled]
  | settleGroupExpenseSplitOp id' now =>
      exact settle_keeps_settled s id' now id sp hfind hsettled
  | postExpenseOp ins now =>
      simp only [applyOp]
      unfold postExpense
      cases hg : (createExpense s ins now).1.groupId with
      | some gid =>
          simp only [hg]
          have hsplits := (splitLoop_state (createExpense s ins now).1
            ((createExpense s ins now).1.amount /
              ((getGroupMembers (createExpense s ins now).2 gid).length : ℚ))
            (getGroupMembers (createExpense s ins now).2 gid)
            (createExpense s ins now).2 (splitsWF_createExpense s ins now hwf)).1
          have hfind2 : mapGet (createExpense s ins now).2.groupExpenseSplits id = some sp :=
            hfind
          rw [hsplits, mapGet_append_some _ _ _ _ hfind2]
          simp [hsettled]
      | none =>
          simp only [hg]
          show Option.map _ (mapGet s.groupExpenseSplits id) = some true
          rw [hfind]; simp [hsettled]
  | settleSplitRouteOp id' now =>
      simp only [applyOp]
      unfold settleSplitRoute
      cases hres : (settleGroupExpenseSplit s id' now).1 with
      | some sp2 =>
          simp only [hres]
          exact settle_keeps_settled s id' now id sp hfind hsettled
      | none =>
          simp only [hres]
          exact settle_keeps_settled s id' now id sp hfind hsettled

/-- C8 (witness): the settled demo split 1 stays settled when a further split
row is created. -/
theorem settled_is_terminal_witness :
    Option.map (fun x => x.settled)
      (mapGet (applyOp settledDemoStore
        (Op.createGroupExpenseSplitOp
          { expenseId := 1, userId := 3, amount := 10 })).groupExpenseSplits 1) =
      some true := by
  have hr : MemReachable settledDemoStore :=
    MemReachable.step _ _ (MemReachable.step _ _ (MemReachable.step _ _
      (MemReachable.step _ _ (MemReachable.step _ _ MemReachable.init))))
  exact settled_is_terminal settledDemoStore hr
    (Op.createGroupExpenseSplitOp { expenseId := 1, userId := 3, amount := 10 }) 1
    { id := 1, expenseId := 1, userId := 2, amount := 10, settled := true, settledAt := some 5 }
    (by norm_num [settledDemoStore, postExpense, createExpense, getGroupMembers, demoStore,
      applyOp, addGroupMember, initialMemStorage, insDinner, mapSet, splitLoop,
      createGroupExpenseSplit, round2, mapGet, settleSplitRoute, settleGroupExpenseSplit])
    rfl

/-- C7: payer exclusion under equal split — recording a group expense creates
exactly one owed row per group member other than the payer (when member user
ids are distinct), no row for the payer, and every created row's amount is
`round2 (amount / |memberSet|)` with the payer included in the divisor. -/
theorem payer_excluded_equal_split (s : MemStorage) (ins : InsertExpense) (now gid : Nat)
    (hwf : splitsWF s) (hg : ins.groupId = some gid)
    (hnodup : ((getGroupMembers s gid).map (·.userId)).Nodup) :
    (∀ m ∈ getGroupMembers s gid, m.userId ≠ ins.userId →
        ((createdSplits s ins now).map (·.userId)).count m.userId = 1) ∧
    ((createdSplits s ins now).map (·.userId)).count ins.userId = 0 ∧
    ∀ sp ∈ createdSplits s ins now,
        sp.amount = round2 (ins.amount / ((getGroupMembers s gid).length : ℚ)) := by
  rw [createdSplits_eq s ins now gid hwf hg]
  have hpayer : (createExpense s ins now).1.userId = ins.userId := rfl
  refine ⟨?_, ?_, ?_⟩
  · intro m hm hmne
    rw [owedSplits_count_of_ne]
    · exact List.count_eq_one_of_mem hnodup (List.mem_map_of_mem _ hm)
    · rw [hpayer]; exact hmne
  · rw [← hpayer]
    exact owedSplits_count_payer _ _ _ _
  · intro sp hsp
    exact owedSplits_amount _ _ _ _ sp hsp

/-- C7 (witness): in the 3-member demo group with payer 1, the 100.00 expense
creates exactly one row for member 2, none for the payer, and the first row's
amount is the quantized three-way share. -/
theorem payer_excluded_equal_split_witness :
    ((createdSplits demoStore insTrip 0).map (·.userId)).count 2 = 1 ∧
    ((createdSplits demoStore insTrip 0).map (·.userId)).count 1 = 0 ∧
    ({ id := 1, expenseId := 1, userId := 2, amount := 3333/100, settled := false
       settledAt := none } : GroupExpenseSplit).amount =
      round2 (insTrip.amount / ((getGroupMembers demoStore 1).length : ℚ)) := by
  have h := payer_excluded_equal_split demoStore insTrip 0 1
    (by simp [splitsWF, demoStore, applyOp, addGroupMember, initialMemStorage, mapSet])
    rfl
    (by norm_num [getGroupMembers, demoStore, applyOp, addGroupMember, initialMemStorage,
      mapSet])
  refine ⟨h.1 { id := 2, groupId := 1, userId := 2, joinedAt := 0 }
      (by norm_num [getGroupMembers, demoStore, applyOp, addGroupMember, initialMemStorage,
        mapSet])
      (by decide),
    h.2.1, h.2.2 _ ?_⟩
  norm_num [createdSplits, postExpense, createExpense, getGroupMembers, demoStore, applyOp,
    addGroupMember, initialMemStorage, insTrip, mapSet, splitLoop, createGroupExpenseSplit,
    owedSplits, round2, mapGet]

/-! ### Identity-mapping lemmas and claim C9 -/

theorem IdMapWF_initial : IdMapWF initialIdMap := by
  intro p hp
  cases hp

theorem IdMapWF_getNumericId (m : IdMap) (key : String) (hwf : IdMapWF m) :
    IdMapWF (getNumericId m key).2 := by
  cases hseen : mapGet m.objectIdToNumber key with
  | some n =>
      have hm : (getNumericId m key).2 = m := by
        unfold getNumericId
        rw [hseen]
      rw [hm]
      exact hwf
  | none =>
      have hm : (getNumericId m key).2 =
          { objectIdToNumber := mapSet m.objectIdToNumber key m.idCounter
            numberToObjectId := mapSet m.numberToObjectId m.idCounter key
            idCounter := m.idCounter + 1 } := by
        unfold getNumericId
        rw [hseen]
      rw [hm]
      intro p hp
      have hfresh : ∀ q ∈ m.objectIdToNumber, q.1 ≠ key := mapGet_none_forall _ _ hseen
      rw [mapSet_eq_append _ _ _ hfresh] at hp
      rcases List.mem_append.mp hp with hold | hnew
      · have h1 := hwf p hold
        exact ⟨by rw [mapGet_mapSet_ne _ _ _ _ (Nat.ne_of_lt h1.2)]; exact h1.1,
          Nat.lt_succ_of_lt h1.2⟩
      · have hp2 : p = (key, m.idCounter) := by simpa using hnew
        subst hp2
        exact ⟨mapGet_mapSet_self _ _ _, Nat.lt_succ_self _⟩

theorem IdMapReachable_wf (m : IdMap) (h : IdMapReachable m) : IdMapWF m := by
  induction h with
  | init => exact IdMapWF_initial
  | step m key _ ih => exact IdMapWF_getNumericId m key ih

/-- C9: identity-mapping bijection — in every reachable id-map state, two
distinct previously-seen native keys have distinct stable ids, `getNumericId`
returns the recorded stable id without mutating the map, `getObjectId` round
trips each seen key, and a never-seen key is allocated the current counter
value while the counter increments by one. -/
theorem idMap_bijection (m : IdMap) (hr : IdMapReachable m) (k1 k2 k : String)
    (n1 n2 : Nat)
    (h1 : mapGet m.objectIdToNumber k1 = some n1)
    (h2 : mapGet m.objectIdToNumber k2 = some n2)
    (hne : k1 ≠ k2) (hk : mapGet m.objectIdToNumber k = none) :
    n1 ≠ n2 ∧
    (getNumericId m k1).1 = n1 ∧ (getNumericId m k2).1 = n2 ∧
    getObjectId m n1 = some k1 ∧ getObjectId m n2 = some k2 ∧
    (getNumericId m k).1 = m.idCounter ∧
    (getNumericId m k).2.idCounter = m.idCounter + 1 := by
  have hwf := IdMapReachable_wf m hr
  have hw1 := hwf (k1, n1) (mapGet_some_mem _ _ _ h1)
  have hw2 := hwf (k2, n2) (mapGet_some_mem _ _ _ h2)
  refine ⟨?_, ?_, ?_, hw1.1, hw2.1, ?_, ?_⟩
  · intro heq
    exact hne (Option.some.inj ((heq ▸ hw1.1).symm.trans hw2.1))
  · unfold getNumericId
    simp only [h1]
  · unfold getNumericId
    simp only [h2]
  · unfold getNumericId
    simp only [hk]
  · unfold getNumericId
    simp only [hk]

/-- Id map after registering native key "a" (stable id 1). -/
def idMapA : IdMap := (getNumericId initialIdMap "a").2

/-- Id map after registering native keys "a" then "b" (stable ids 1, 2). -/
def idMapAB : IdMap := (getNumericId idMapA "b").2

/-- C9 (witness): after seeing "a" and "b", the stable ids 1 and 2 are
distinct and round-trip, and the unseen key "c" would be allocated the
counter value 3. -/
theorem idMap_bijection_witness :
    ((1 : Nat) ≠ 2) ∧
    (getNumericId idMapAB "a").1 = 1 ∧ (getNumericId idMapAB "b").1 = 2 ∧
    getObjectId idMapAB 1 = some "a" ∧ getObjectId idMapAB 2 = some "b" ∧
    (getNumericId idMapAB "c").1 = idMapAB.idCounter ∧
    (getNumericId idMapAB "c").2.idCounter = idMapAB.idCounter + 1 := by
  have hr : IdMapReachable idMapAB :=
    IdMapReachable.step idMapA "b" (IdMapReachable.step initialIdMap "a" IdMapReachable.init)
  exact idMap_bijection idMapAB hr "a" "b" "c" 1 2 (by decide) (by decide) (by decide)
    (by decide)

/-! ### Mongo-store lemmas and claims C3, C4 -/

theorem isGroupMemberM_known (s : MongoStore) (g u : Nat)
    (h : isGroupMemberM s g u = true) : g ∈ s.knownIds ∧ u ∈ s.knownIds := by
  by_cases hc : g ∈ s.knownIds ∧ u ∈ s.knownIds
  · exact hc
  · unfold isGroupMemberM at h
    rw [if_neg hc] at h
    cases h

theorem createSplitsM_ok (expenseId : Nat) (l : List SuppliedSplit) (s : MongoStore)
    (hexp : expenseId ∈ s.knownIds) (hl : ∀ sp ∈ l, sp.userId ∈ s.knownIds) :
    createSplitsM expenseId l s =
      (none,
       { s with splitsM := s.splitsM ++ suppliedRows expenseId l s.nextNativeId
                knownIds := s.knownIds ++ rangeFrom s.nextNativeId l.length
                nextNativeId := s.nextNativeId + l.length }) := by
  induction l generalizing s with
  | nil => simp [createSplitsM, suppliedRows, rangeFrom]
  | cons sp rest ih =>
      have hhead : sp.userId ∈ s.knownIds := hl sp (List.mem_cons_self _ _)
      have hcond : expenseId ∈ s.knownIds ∧ sp.userId ∈ s.knownIds := ⟨hexp, hhead⟩
      simp only [createSplitsM, createGroupExpenseSplitM, if_pos hcond]
      refine (ih _ (List.mem_append_left _ hexp)
        (fun q hq => List.mem_append_left _ (hl q (List.mem_cons_of_mem _ hq)))).trans ?_
      simp [suppliedRows, rangeFrom, List.append_assoc]
      omega

theorem createSplitsM_fail (expenseId : Nat) (good : List SuppliedSplit)
    (bad : SuppliedSplit) (rest : List SuppliedSplit) (s : MongoStore)
    (hexp : expenseId ∈ s.knownIds) (hgood : ∀ sp ∈ good, sp.userId ∈ s.knownIds)
    (hbad1 : bad.userId ∉ s.knownIds)
    (hbad2 : bad.userId ∉ rangeFrom s.nextNativeId good.length) :
    createSplitsM expenseId (good ++ bad :: rest) s =
      (some "Invalid expense or user ID",
       { s with splitsM := s.splitsM ++ suppliedRows expenseId good s.nextNativeId
                knownIds := s.knownIds ++ rangeFrom s.nextNativeId good.length
                nextNativeId := s.nextNativeId + good.length }) := by
  induction good generalizing s with
  | nil =>
      have hcond : ¬(expenseId ∈ s.knownIds ∧ bad.userId ∈ s.knownIds) := fun h => hbad1 h.2
      simp only [List.nil_append, createSplitsM, createGroupExpenseSplitM, if_neg hcond]
      simp [suppliedRows, rangeFrom]
  | cons sp good' ih =>
      have hhead : sp.userId ∈ s.knownIds := hgood sp (List.mem_cons_self _ _)
      have hcond : expenseId ∈ s.knownIds ∧ sp.userId ∈ s.knownIds := ⟨hexp, hhead⟩
      simp only [List.cons_append, createSplitsM, createGroupExpenseSplitM, if_pos hcond]
      have hbadrange : bad.userId ≠ s.nextNativeId ∧
          bad.userId ∉ rangeFrom (s.nextNativeId + 1) good'.length := by
        constructor
        · intro heq
          exact hbad2 (heq ▸ by simp [rangeFrom])
        · intro hmem
          exact hbad2 (by simp [rangeFrom]; right; exact hmem)
      refine (ih _ (List.mem_append_left _ hexp)
        (fun q hq => List.mem_append_left _ (hgood q (List.mem_cons_of_mem _ hq)))
        (by
          simp only [List.mem_append, List.mem_singleton]
          rintro (h | h)
          · exact hbad1 h
          · exact hbadrange.1 h)
        hbadrange.2).trans ?_
      simp [suppliedRows, rangeFrom, List.append_assoc]
      omega

/-- C4 (amended): the custom-split route performs no validation of the
supplied amounts — whenever the payer is a member and every reference
resolves, the call succeeds with 201 and persists the expense row and one
split row per supplied entry exactly as supplied, whatever their sum; no
`SplitMismatch` failure exists in the code. -/
theorem custom_split_no_validation (s : MongoStore) (userId groupId categoryId now : Nat)
    (amount : ℚ) (description : String) (splits : List SuppliedSplit)
    (hmem : isGroupMemberM s groupId userId = true)
    (hcat : categoryId ∈ s.knownIds)
    (hall : ∀ sp ∈ splits, sp.userId ∈ s.knownIds) :
    (postGroupExpenses s userId groupId amount description categoryId splits now).status
        = 201 ∧
    (postGroupExpenses s userId groupId amount description categoryId splits now).state.expensesM
        = s.expensesM ++
          [{ id := s.nextNativeId, amount := amount, description := description
             categoryId := categoryId, userId := userId, groupId := some groupId
             notes := none, receipt := none, date := now }] ∧
    (postGroupExpenses s userId groupId amount description categoryId splits now).state.splitsM
        = s.splitsM ++ suppliedRows s.nextNativeId splits (s.nextNativeId + 1) ∧
    (postGroupExpenses s userId groupId amount description categoryId splits now).broadcasts
        = [BroadcastMessage.groupExpenseAdded groupId
            { id := s.nextNativeId, amount := amount, description := description
              categoryId := categoryId, userId := userId, groupId := some groupId
              notes := none, receipt := none, date := now }] := by
  obtain ⟨hg, hu⟩ := isGroupMemberM_known s groupId userId hmem
  have hexp2 : s.nextNativeId ∈ s.knownIds ++ [s.nextNativeId] :=
    List.mem_append_right _ (List.mem_singleton.mpr rfl)
  have hall2 : ∀ sp ∈ splits, sp.userId ∈ s.knownIds ++ [s.nextNativeId] :=
    fun q hq => List.mem_append_left _ (hall q hq)
  unfold postGroupExpenses
  rw [if_pos hmem]
  simp only [createExpenseM, if_pos (And.intro hu hcat), if_pos hg]
  rw [createSplitsM_ok s.nextNativeId splits _ hexp2 hall2]
  exact ⟨rfl, rfl, rfl, rfl⟩

/-- C3 (amended): expense recording is not atomic — the route writes the
expense row first and then the split rows one by one with no transaction, so
when a split reference fails to resolve partway through, the call answers 500
yet leaves the expense row visible together with exactly the split rows
created before the failing entry. -/
theorem record_expense_partial_on_failure (s : MongoStore)
    (userId groupId categoryId now : Nat) (amount : ℚ) (description : String)
    (good : List SuppliedSplit) (bad : SuppliedSplit) (rest : List SuppliedSplit)
    (hmem : isGroupMemberM s groupId userId = true)
    (hcat : categoryId ∈ s.knownIds)
    (hgood : ∀ sp ∈ good, sp.userId ∈ s.knownIds)
    (hbad1 : bad.userId ∉ s.knownIds)
    (hbad2 : bad.userId ∉ rangeFrom s.nextNativeId (good.length + 1)) :
    (postGroupExpenses s userId groupId amount description categoryId
        (good ++ bad :: rest) now).status = 500 ∧
    (postGroupExpenses s userId groupId amount description categoryId
        (good ++ bad :: rest) now).state.expensesM
      = s.expensesM ++
        [{ id := s.nextNativeId, amount := amount, description := description
           categoryId := categoryId, userId := userId, groupId := some groupId
           notes := none, receipt := none, date := now }] ∧
    (postGroupExpenses s userId groupId amount description categoryId
        (good ++ bad :: rest) now).state.splitsM
      = s.splitsM ++ suppliedRows s.nextNativeId good (s.nextNativeId + 1) := by
  obtain ⟨hg, hu⟩ := isGroupMemberM_known s groupId userId hmem
  have hexp2 : s.nextNativeId ∈ s.knownIds ++ [s.nextNativeId] :=
    List.mem_append_right _ (List.mem_singleton.mpr rfl)
  have hgood2 : ∀ sp ∈ good, sp.userId ∈ s.knownIds ++ [s.nextNativeId] :=
    fun q hq => List.mem_append_left _ (hgood q hq)
  have hbadsplit : bad.userId ≠ s.nextNativeId ∧
      bad.userId ∉ rangeFrom (s.nextNativeId + 1) good.length := by
    constructor
    · intro heq
      exact hbad2 (heq ▸ by simp [rangeFrom])
    · intro hmem2
      exact hbad2 (by simp [rangeFrom]; right; exact hmem2)
  have hbad12 : bad.userId ∉ s.knownIds ++ [s.nextNativeId] := by
    simp only [List.mem_append, List.mem_singleton]
    rintro (h | h)
    · exact hbad1 h
    · exact hbadsplit.1 h
  unfold postGroupExpenses
  rw [if_pos hmem]
  simp only [createExpenseM, if_pos (And.intro hu hcat), if_pos hg]
  rw [createSplitsM_fail s.nextNativeId good bad rest _ hexp2 hgood2 hbad12 hbadsplit.2]
  exact ⟨rfl, rfl, rfl⟩

/-- Mongo-view store with known ids 1 (user, payer), 2 (user), 3 (category),
5 (group); users 1 and 2 are members of group 5. -/
def mongoDemoStore : MongoStore :=
  { knownIds := [1, 2, 3, 5], nextNativeId := 6, expensesM := [], splitsM := []
    membersM := [{ id := 1, groupId := 5, userId := 1, joinedAt := 0 },
                 { id := 2, groupId := 5, userId := 2, joinedAt := 0 }] }

/-- C3 (counterexample): recording a 100.00 group expense with two supplied
splits, the second referencing the unknown user 99, fails with 500 after the
expense row and the first split row were already written: reading the splits
of the persisted expense afterwards returns exactly one row — neither the
complete two-row set nor no rows — so the expense is visible without its full
split set. -/
theorem atomic_recording_cex :
    (postGroupExpenses mongoDemoStore 1 5 100 "Trip" 3
        [{ userId := 2, amount := 50 }, { userId := 99, amount := 50 }] 0).status = 500 ∧
    (postGroupExpenses mongoDemoStore 1 5 100 "Trip" 3
        [{ userId := 2, amount := 50 }, { userId := 99, amount := 50 }] 0).state.expensesM =
      [{ id := 6, amount := 100, description := "Trip", categoryId := 3, userId := 1
         groupId := some 5, notes := none, receipt := none, date := 0 }] ∧
    getGroupExpenseSplitsM
      (postGroupExpenses mongoDemoStore 1 5 100 "Trip" 3
        [{ userId := 2, amount := 50 }, { userId := 99, amount := 50 }] 0).state 6 =
      [{ id := 7, expenseId := 6, userId := 2, amount := 50, settled := false
         settledAt := none }] ∧
    ([{ userId := 2, amount := 50 }, { userId := 99, amount := 50 }] :
      List SuppliedSplit).length = 2 := by
  refine ⟨?_, ?_, ?_, rfl⟩ <;>
    norm_num [postGroupExpenses, isGroupMemberM, createExpenseM, createGroupExpenseSplitM,
      createSplitsM, getGroupExpenseSplitsM, mongoDemoStore]

/-- C3 (witness): the amended statement instantiated on the demo scenario
with one resolvable split before the failing one. -/
theorem record_expense_partial_on_failure_witness :
    (postGroupExpenses mongoDemoStore 1 5 100 "Trip" 3
        [{ userId := 2, amount := 50 }, { userId := 99, amount := 50 }] 0).status = 500 ∧
    (postGroupExpenses mongoDemoStore 1 5 100 "Trip" 3
        [{ userId := 2, amount := 50 }, { userId := 99, amount := 50 }] 0).state.expensesM =
      [{ id := 6, amount := 100, description := "Trip", categoryId := 3, userId := 1
         groupId := some 5, notes := none, receipt := none, date := 0 }] ∧
    (postGroupExpenses mongoDemoStore 1 5 100 "Trip" 3
        [{ userId := 2, amount := 50 }, { userId := 99, amount := 50 }] 0).state.splitsM =
      [{ id := 7, expenseId := 6, userId := 2, amount := 50, settled := false
         settledAt := none }] :=
  record_expense_partial_on_failure mongoDemoStore 1 5 3 0 100 "Trip"
    [{ userId := 2, amount := 50 }] { userId := 99, amount := 50 } []
    (by decide) (by decide) (by decide) (by decide) (by decide)

/-- C4 (counterexample): a custom split whose amounts sum to 99.98 against a
declared expense amount of 100.00 (a 0.02 mismatch, beyond the 0.01
tolerance) is not rejected: the call succeeds with 201 and persists the
expense row and both supplied split rows, so the failed-with-`SplitMismatch`
and zero-persisted-rows behaviour of the claim does not occur. -/
theorem custom_split_mismatch_persisted_cex :
    (postGroupExpenses mongoDemoStore 1 5 100 "Trip" 3
        [{ userId := 1, amount := 4999/100 }, { userId := 2, amount := 4999/100 }] 0).status
      = 201 ∧
    (postGroupExpenses mongoDemoStore 1 5 100 "Trip" 3
        [{ userId := 1, amount := 4999/100 }, { userId := 2, amount := 4999/100 }]
        0).state.expensesM =
      [{ id := 6, amount := 100, description := "Trip", categoryId := 3, userId := 1
         groupId := some 5, notes := none, receipt := none, date := 0 }] ∧
    (postGroupExpenses mongoDemoStore 1 5 100 "Trip" 3
        [{ userId := 1, amount := 4999/100 }, { userId := 2, amount := 4999/100 }]
        0).state.splitsM =
      [{ id := 7, expenseId := 6, userId := 1, amount := 4999/100, settled := false
         settledAt := none },
       { id := 8, expenseId := 6, userId := 2, amount := 4999/100, settled := false
         settledAt := none }] ∧
    ((4999 : ℚ)/100 + 4999/100 = 9998/100) ∧ ((100 : ℚ) - 9998/100 > 1/100) := by
  refine ⟨?_, ?_, ?_, by norm_num, by norm_num⟩ <;>
    norm_num [postGroupExpenses, isGroupMemberM, createExpenseM, createGroupExpenseSplitM,
      createSplitsM, mongoDemoStore]

/-- C4 (witness): the amended statement instantiated on the mismatching
99.98-versus-100.00 custom split, which is persisted in full. -/
theorem custom_split_no_validation_witness :
    (postGroupExpenses mongoDemoStore 1 5 100 "Trip" 3
        [{ userId := 1, amount := 4999/100 }, { userId := 2, amount := 4999/100 }] 0).status
      = 201 ∧
    (postGroupExpenses mongoDemoStore 1 5 100 "Trip" 3
        [{ userId := 1, amount := 4999/100 }, { userId := 2, amount := 4999/100 }]
        0).state.expensesM =
      mongoDemoStore.expensesM ++
        [{ id := 6, amount := 100, description := "Trip", categoryId := 3, userId := 1
           groupId := some 5, notes := none, receipt := none, date := 0 }] ∧
    (postGroupExpenses mongoDemoStore 1 5 100 "Trip" 3
        [{ userId := 1, amount := 4999/100 }, { userId := 2, amount := 4999/100 }]
        0).state.splitsM =
      mongoDemoStore.splitsM ++
        suppliedRows 6
          [{ userId := 1, amount := 4999/100 }, { userId := 2, amount := 4999/100 }] 7 ∧
    (postGroupExpenses mongoDemoStore 1 5 100 "Trip" 3
        [{ userId := 1, amount := 4999/100 }, { userId := 2, amount := 4999/100 }]
        0).broadcasts =
      [BroadcastMessage.groupExpenseAdded 5
        { id := 6, amount := 100, description := "Trip", categoryId := 3, userId := 1
          groupId := some 5, notes := none, receipt := none, date := 0 }] :=
  custom_split_no_validation mongoDemoStore 1 5 3 0 100 "Trip"
    [{ userId := 1, amount := 4999/100 }, { userId := 2, amount := 4999/100 }]
    (by decide) (by decide) (by decide)

end MySpend
